import Mathlib

/-!
Verification of the UE session store (`sessionmgr`): a shallow embedding of
the repository layer (`internal/repository`, type `SessionRepository`) and the
service layer (`internal/service`, type `SessionService`) over a model of the
Redis key-value store.

Modelling conventions:
* `time.Time` is modelled as `Nat` (an instant); the Go zero value corresponds
  to `0` (`IsZero` becomes `= 0`).  Each operation receives the current
  instant `now`; the several `time.Now()` calls inside one operation are
  modelled as the same instant.
* Redis keys carry an expiry deadline.  A record key stores
  `(Session, deadline : Nat)` (every `SET` in the code supplies a TTL); an
  index set stores `(List String, deadline : Option Nat)` where `none` means
  no expiry (a set freshly created by `SADD` has no TTL until `EXPIRE` runs).
  A key is live at `now` when `now` is strictly below its deadline; Redis
  physically reclaims expired keys, so every accessor treats a dead key as
  absent.
* JSON marshalling/unmarshalling of a record round-trips and is modelled as
  the identity; strings are ASCII in all scenarios of interest, so Go's
  byte-length `len` agrees with `String.length`.
* The mutual recursion between `SessionRepository.Get` (which renews the TTL
  after a successful read) and `SessionRepository.RenewTTL` (which re-reads
  the record through `Get`) is modelled with a fuel parameter; a result of
  `none` means the computation did not complete within the given fuel, and a
  statement `∀ fuel, … = none` means the call never returns.
* The `go r.cleanupExpiredIndex(...)` statement in `QueryByMultiple` launches
  a detached goroutine; it is not part of the triggering operation's store
  transition.  The goroutine body is modelled separately
  (`cleanupExpiredIndex`) and shown to never change the store when it
  completes.
-/

/-- `domain.SecurityContext` (internal/domain/session.go). -/
structure SecurityContext where
  kamf : String
  algorithm : String
  keySetID : String
  nextHopChainingCount : Int
deriving DecidableEq, Repr

/-- `domain.Session` (internal/domain/session.go); `AttachTime` and
`LastUpdate` are instants (`time.Time` modelled as `Nat`). -/
structure Session where
  tmsi : String
  imsi : String
  msisdn : String
  attachTime : Nat
  lastUpdate : Nat
  gnbid : String
  tai : String
  ueState : String
  capabilities : List String
  securityCtx : SecurityContext
deriving DecidableEq, Repr

/-- The error kinds of `internal/domain` (ValidationError with its field,
NotFoundError) plus the plain `fmt.Errorf` errors used by the service layer,
which carry no domain error kind. -/
inductive SErr where
  | invalidTMSI
  | invalidIMSI
  | invalidMSISDN
  | notFound
  | plain (msg : String)
deriving DecidableEq, Repr

deriving instance DecidableEq for Except

/-- Association-list lookup (first match). -/
def alookup {α : Type} : List (String × α) → String → Option α
  | [], _ => none
  | (k, v) :: rest, key => if k = key then some v else alookup rest key

/-- Association-list write: replace the binding of `key`, or append it. -/
def aset {α : Type} : List (String × α) → String → α → List (String × α)
  | [], key, v => [(key, v)]
  | (k, w) :: rest, key, v =>
      if k = key then (key, v) :: rest else (k, w) :: aset rest key v

/-- Association-list delete (all bindings of `key`). -/
def adel {α : Type} : List (String × α) → String → List (String × α)
  | [], _ => []
  | (k, w) :: rest, key =>
      if k = key then adel rest key else (k, w) :: adel rest key

/-- The Redis state used by the repository: session records keyed by TMSI
(with expiry deadline), the IMSI index sets and the MSISDN index sets (with
optional expiry deadline — `none` until an `EXPIRE` runs). -/
structure Store where
  sessions : List (String × (Session × Nat))
  imsiIdx : List (String × (List String × Option Nat))
  msisdnIdx : List (String × (List String × Option Nat))
deriving DecidableEq, Repr

def emptyStore : Store := ⟨[], [], []⟩

/-- Liveness of an optional deadline at instant `now` (`none` = persistent). -/
def dlive (now : Nat) : Option Nat → Prop
  | none => True
  | some d => now < d

instance (now : Nat) (d : Option Nat) : Decidable (dlive now d) := by
  cases d <;> simp [dlive] <;> infer_instance

/-- Redis `GET` of a session record key: dead or absent keys read as absent. -/
def getSess (st : Store) (now : Nat) (t : String) : Option Session :=
  match alookup st.sessions t with
  | some (s, d) => if now < d then some s else none
  | none => none

/-- Redis `SET key value ttl` on a session record key. -/
def setSess (ttl : Nat) (st : Store) (now : Nat) (t : String) (s : Session) : Store :=
  { st with sessions := aset st.sessions t (s, now + ttl) }

/-- Redis `DEL` of a session record key. -/
def delSess (st : Store) (t : String) : Store :=
  { st with sessions := adel st.sessions t }

/-- Redis `EXPIRE` on a session record key: refreshes the deadline of a live
key, does nothing when the key is dead or absent. -/
def expireSess (ttl : Nat) (st : Store) (now : Nat) (t : String) : Store :=
  match alookup st.sessions t with
  | some (s, d) =>
      if now < d then { st with sessions := aset st.sessions t (s, now + ttl) } else st
  | none => st

/-- Live lookup in an index map: a dead or absent set reads as absent. -/
def idxFind (idx : List (String × (List String × Option Nat))) (now : Nat)
    (key : String) : Option (List String × Option Nat) :=
  match alookup idx key with
  | some (l, dl) => if dlive now dl then some (l, dl) else none
  | none => none

/-- Redis `SADD key t`: adds to a live set keeping its deadline; on a dead or
absent key creates a fresh set `{t}` with no expiry. -/
def sadd (idx : List (String × (List String × Option Nat))) (now : Nat)
    (key t : String) : List (String × (List String × Option Nat)) :=
  match idxFind idx now key with
  | some (l, dl) => aset idx key ((if t ∈ l then l else l ++ [t]), dl)
  | none => aset idx key ([t], none)

/-- Redis `EXPIRE key ttl` on an index set: refreshes a live key's deadline,
no-op otherwise. -/
def expireIdx (ttl : Nat) (idx : List (String × (List String × Option Nat)))
    (now : Nat) (key : String) : List (String × (List String × Option Nat)) :=
  match idxFind idx now key with
  | some (l, _) => aset idx key (l, some (now + ttl))
  | none => idx

/-- Redis `SREM key t`: removes `t` from a live set; Redis deletes a set that
becomes empty. Dead or absent keys are untouched. -/
def srem (idx : List (String × (List String × Option Nat))) (now : Nat)
    (key t : String) : List (String × (List String × Option Nat)) :=
  match idxFind idx now key with
  | some (l, dl) =>
      let l' := l.filter (fun u => u ≠ t)
      if l' = [] then adel idx key else aset idx key (l', dl)
  | none => idx

/-- Redis `SMEMBERS`: members of a live set, `[]` for a dead or absent key. -/
def smembers (idx : List (String × (List String × Option Nat))) (now : Nat)
    (key : String) : List String :=
  match idxFind idx now key with
  | some (l, _) => l
  | none => []

/-- `SessionRepository.validateSession`: emptiness checks only, in source
order (TMSI, IMSI, MSISDN).  The `session == nil` case has no counterpart for
value-typed sessions. -/
def validateSession (s : Session) : Except SErr Unit :=
  if s.tmsi = "" then .error .invalidTMSI
  else if s.imsi = "" then .error .invalidIMSI
  else if s.msisdn = "" then .error .invalidMSISDN
  else .ok ()

/-- `SessionRepository.Create`: validate, default `AttachTime` to now when
zero, stamp `LastUpdate`, then pipeline `SET` record, `SADD`+`EXPIRE` the IMSI
index, `SADD`+`EXPIRE` the MSISDN index.  There is no duplicate-TMSI check at
this layer.  Returns the error result and the store after the pipeline. -/
def repoCreate (ttl : Nat) (st : Store) (now : Nat) (s : Session) :
    Except SErr Unit × Store :=
  match validateSession s with
  | .error e => (.error e, st)
  | .ok _ =>
      let s' : Session :=
        { s with attachTime := if s.attachTime = 0 then now else s.attachTime,
                 lastUpdate := now }
      let st1 := setSess ttl st now s'.tmsi s'
      let st2 := { st1 with imsiIdx := expireIdx ttl (sadd st1.imsiIdx now s'.imsi s'.tmsi) now s'.imsi }
      let st3 := { st2 with msisdnIdx := expireIdx ttl (sadd st2.msisdnIdx now s'.msisdn s'.tmsi) now s'.msisdn }
      (.ok (), st3)

mutual

/-- `SessionRepository.Get`: reject an empty TMSI, `GET` the record
(`redis.Nil` becomes `NotFound`), then call `RenewTTL` on the same TMSI,
swallowing its error.  `RenewTTL` in turn calls `Get`, so the two are mutually
recursive; `fuel` bounds the recursion depth and `none` means the call did not
complete within the fuel. -/
def repoGet (ttl : Nat) : Nat → Store → Nat → String →
    Option (Except SErr Session × Store)
  | 0, _, _, _ => none
  | fuel + 1, st, now, t =>
      if t = "" then some (.error .invalidTMSI, st)
      else
        match getSess st now t with
        | none => some (.error .notFound, st)
        | some s =>
            match repoRenewTTL ttl fuel st now t with
            | none => none
            | some (_, st') => some (.ok s, st')

/-- `SessionRepository.RenewTTL`: reject an empty TMSI, re-read the record
through `Get` (propagating its error), then pipeline `EXPIRE` on the record
key and on both index keys of the record's identifiers. -/
def repoRenewTTL (ttl : Nat) : Nat → Store → Nat → String →
    Option (Except SErr Unit × Store)
  | 0, _, _, _ => none
  | fuel + 1, st, now, t =>
      if t = "" then some (.error .invalidTMSI, st)
      else
        match repoGet ttl fuel st now t with
        | none => none
        | some (.error e, st') => some (.error e, st')
        | some (.ok s, st') =>
            let st1 := expireSess ttl st' now t
            let st2 := { st1 with imsiIdx := expireIdx ttl st1.imsiIdx now s.imsi }
            let st3 := { st2 with msisdnIdx := expireIdx ttl st2.msisdnIdx now s.msisdn }
            some (.ok (), st3)

end

/-- `SessionRepository.Update`: validate, read the existing record through
`Get` (propagating its error), preserve the original `AttachTime`, stamp
`LastUpdate`, then pipeline `SET` the record and, for each identifier that
changed, `SREM` from the old index, `SADD` to the new one and `EXPIRE` it. -/
def repoUpdate (ttl fuel : Nat) (st : Store) (now : Nat) (s : Session) :
    Option (Except SErr Unit × Store) :=
  match validateSession s with
  | .error e => some (.error e, st)
  | .ok _ =>
      match repoGet ttl fuel st now s.tmsi with
      | none => none
      | some (.error e, st') => some (.error e, st')
      | some (.ok existing, st') =>
          let s' : Session := { s with lastUpdate := now, attachTime := existing.attachTime }
          let st1 := setSess ttl st' now s'.tmsi s'
          let st2 :=
            if existing.imsi = s'.imsi then st1
            else { st1 with imsiIdx :=
                     expireIdx ttl (sadd (srem st1.imsiIdx now existing.imsi s'.tmsi)
                       now s'.imsi s'.tmsi) now s'.imsi }
          let st3 :=
            if existing.msisdn = s'.msisdn then st2
            else { st2 with msisdnIdx :=
                     expireIdx ttl (sadd (srem st2.msisdnIdx now existing.msisdn s'.tmsi)
                       now s'.msisdn s'.tmsi) now s'.msisdn }
          some (.ok (), st3)

/-- `SessionRepository.Delete`: reject an empty TMSI, read the record through
`Get` (propagating its error), then pipeline `DEL` on the record key and
`SREM` from both index sets of the record's identifiers. -/
def repoDelete (ttl fuel : Nat) (st : Store) (now : Nat) (t : String) :
    Option (Except SErr Unit × Store) :=
  if t = "" then some (.error .invalidTMSI, st)
  else
    match repoGet ttl fuel st now t with
    | none => none
    | some (.error e, st') => some (.error e, st')
    | some (.ok s, st') =>
        let st1 := delSess st' t
        let st2 := { st1 with imsiIdx := srem st1.imsiIdx now s.imsi t }
        let st3 := { st2 with msisdnIdx := srem st2.msisdnIdx now s.msisdn t }
        some (.ok (), st3)

/-- The resolution loop of `SessionRepository.QueryByMultiple`: pipelined
`GET` per TMSI; a missing record (`redis.Nil`) is skipped (the detached
cleanup goroutine it spawns is not part of this transition). -/
def collectSessions (st : Store) (now : Nat) : List String → List Session
  | [] => []
  | t :: rest =>
      match getSess st now t with
      | none => collectSessions st now rest
      | some s => s :: collectSessions st now rest

/-- `SessionRepository.QueryByMultiple`: empty input yields `[]`; otherwise
the resolution loop.  Read-only on the store. -/
def repoQueryByMultiple (st : Store) (now : Nat) (ts : List String) :
    Except SErr (List Session) × Store :=
  if ts = [] then (.ok [], st)
  else (.ok (collectSessions st now ts), st)

/-- `SessionRepository.QueryByIMSI`: reject an empty IMSI, `SMEMBERS` the
index, return `[]` when the set is empty, otherwise resolve members. -/
def repoQueryByIMSI (st : Store) (now : Nat) (imsi : String) :
    Except SErr (List Session) × Store :=
  if imsi = "" then (.error .invalidIMSI, st)
  else
    let ms := smembers st.imsiIdx now imsi
    if ms = [] then (.ok [], st)
    else repoQueryByMultiple st now ms

/-- `SessionRepository.QueryByMSISDN`, symmetric to `QueryByIMSI`. -/
def repoQueryByMSISDN (st : Store) (now : Nat) (msisdn : String) :
    Except SErr (List Session) × Store :=
  if msisdn = "" then (.error .invalidMSISDN, st)
  else
    let ms := smembers st.msisdnIdx now msisdn
    if ms = [] then (.ok [], st)
    else repoQueryByMultiple st now ms

/-- The body of the detached goroutine `cleanupExpiredIndex`: re-read the
record through `Get`; on any error give up silently; otherwise `SREM` the TMSI
from both index sets. -/
def cleanupExpiredIndex (ttl fuel : Nat) (st : Store) (now : Nat) (t : String) :
    Option Store :=
  match repoGet ttl fuel st now t with
  | none => none
  | some (.error _, st') => some st'
  | some (.ok s, st') =>
      let st1 := { st' with imsiIdx := srem st'.imsiIdx now s.imsi t }
      some { st1 with msisdnIdx := srem st1.msisdnIdx now s.msisdn t }

/-- `SessionService.validateSessionForCreation`: emptiness checks returning
the field-carrying `ValidationError`s, then minimum-length checks returning
plain `fmt.Errorf` errors (TMSI ≥ 4, IMSI ≥ 14, MSISDN ≥ 10). -/
def validateSessionForCreation (s : Session) : Except SErr Unit :=
  if s.tmsi = "" then .error .invalidTMSI
  else if s.imsi = "" then .error .invalidIMSI
  else if s.msisdn = "" then .error .invalidMSISDN
  else if s.tmsi.length < 4 then .error (.plain "TMSI must be at least 4 characters long")
  else if s.imsi.length < 14 then .error (.plain "IMSI must be at least 14 characters long")
  else if s.msisdn.length < 10 then .error (.plain "MSISDN must be at least 10 characters long")
  else .ok ()

/-- `SessionService.validateSessionForUpdate`: emptiness checks only — no
minimum-length checks. -/
def validateSessionForUpdate (s : Session) : Except SErr Unit :=
  if s.tmsi = "" then .error .invalidTMSI
  else if s.imsi = "" then .error .invalidIMSI
  else if s.msisdn = "" then .error .invalidMSISDN
  else .ok ()

/-- `SessionService.CreateSession`: creation-validation, then a duplicate
check through `repo.Get` (a successful read means the TMSI is taken and a
plain error is returned; any `Get` error lets creation proceed), then
defaulting of `UEState` (a `nil` capability slice and the empty list coincide
in this model), then `repo.Create`. -/
def serviceCreateSession (ttl fuel : Nat) (st : Store) (now : Nat) (s : Session) :
    Option (Except SErr Unit × Store) :=
  match validateSessionForCreation s with
  | .error e => some (.error e, st)
  | .ok _ =>
      match repoGet ttl fuel st now s.tmsi with
      | none => none
      | some (.ok _, st') =>
          some (.error (.plain ("session with TMSI " ++ s.tmsi ++ " already exists")), st')
      | some (.error _, st') =>
          let s' : Session := { s with ueState := if s.ueState = "" then "REGISTERED" else s.ueState }
          some (repoCreate ttl st' now s')

/-- `SessionService.UpdateSession`: update-validation, existence check through
`repo.Get` (propagating its error), preserve `AttachTime`, then
`repo.Update`. -/
def serviceUpdateSession (ttl fuel : Nat) (st : Store) (now : Nat) (s : Session) :
    Option (Except SErr Unit × Store) :=
  match validateSessionForUpdate s with
  | .error e => some (.error e, st)
  | .ok _ =>
      match repoGet ttl fuel st now s.tmsi with
      | none => none
      | some (.error e, st') => some (.error e, st')
      | some (.ok existing, st') =>
          repoUpdate ttl fuel st' now { s with attachTime := existing.attachTime }

/-- The five mutating operations named by the reachability claim, with their
inputs. -/
inductive Op where
  | create (s : Session)
  | get (t : String)
  | update (s : Session)
  | del (t : String)
  | renew (t : String)

/-- The store transition of one repository operation issued at instant `now`
with recursion budget `fuel`; `none` when the operation never completes. -/
def applyOp (ttl fuel : Nat) (st : Store) (now : Nat) : Op → Option Store
  | .create s => some (repoCreate ttl st now s).2
  | .get t => (repoGet ttl fuel st now t).map (fun r => r.2)
  | .update s => (repoUpdate ttl fuel st now s).map (fun r => r.2)
  | .del t => (repoDelete ttl fuel st now t).map (fun r => r.2)
  | .renew t => (repoRenewTTL ttl fuel st now t).map (fun r => r.2)

/-- `Reachable ttl st t0`: the store `st` arises from the empty store by a
sequence of completed repository operations at nondecreasing instants, the
last one at `t0` (the Redis server clock is monotone). -/
inductive Reachable (ttl : Nat) : Store → Nat → Prop where
  | init : Reachable ttl emptyStore 0
  | step {st : Store} {t0 now fuel : Nat} {op : Op} {st' : Store} :
      Reachable ttl st t0 → t0 ≤ now → applyOp ttl fuel st now op = some st' →
      Reachable ttl st' now

/-- `d` is below an optional deadline (`none` = no expiry = unbounded). -/
def OptLE (d : Nat) : Option Nat → Prop
  | none => True
  | some x => d ≤ x

/-- `t` is recorded in the index set of `key` whose deadline dominates `d`. -/
def MemIdx (idx : List (String × (List String × Option Nat))) (key t : String)
    (d : Nat) : Prop :=
  ∃ l dl, alookup idx key = some (l, dl) ∧ t ∈ l ∧ OptLE d dl

/-- The inductive invariant: every session entry expires by `t0 + ttl`, and is
either already expired at `t0` or is registered in both index sets of its
current identifiers with index deadlines at least as late as its own. -/
def Good (ttl : Nat) (st : Store) (t0 : Nat) : Prop :=
  ∀ t s d, alookup st.sessions t = some (s, d) →
    d ≤ t0 + ttl ∧
      (d ≤ t0 ∨ (MemIdx st.imsiIdx s.imsi t d ∧ MemIdx st.msisdnIdx s.msisdn t d))

/-- The claimed invariant: at any instant from `t0` on, a live record's TMSI
is a member of the live IMSI index set of its IMSI and of the live MSISDN
index set of its MSISDN. -/
def SessionLiveInv (st : Store) (t0 : Nat) : Prop :=
  ∀ now t s, t0 ≤ now → getSess st now t = some s →
    t ∈ smembers st.imsiIdx now s.imsi ∧ t ∈ smembers st.msisdnIdx now s.msisdn

/-! Concrete scenario data (one record per claim; TTL 100 throughout). -/

def secCtx0 : SecurityContext := ⟨"test-kamf", "AES", "1", 1⟩

def sessC1 : Session :=
  ⟨"12345678", "123456789012345", "1234567890", 0, 0, "gNB001", "TAI001",
    "REGISTERED", ["5G", "4G"], secCtx0⟩

def stC1 : Store := (repoCreate 100 emptyStore 10 sessC1).2

def sessC2 : Session :=
  ⟨"TMSIC200", "IMSIC20000000001", "0999000002", 0, 0, "", "", "REGISTERED",
    [], secCtx0⟩

def sessC3 : Session :=
  ⟨"TMSIC300", "IMSIC30000000001", "0999000003", 0, 0, "", "", "REGISTERED",
    [], secCtx0⟩

def stC3 : Store := (repoCreate 100 emptyStore 0 sessC3).2

def sessC4 : Session :=
  ⟨"TMSIC400", "IMSIC40000000001", "0999000004", 0, 0, "", "", "REGISTERED",
    [], secCtx0⟩

def stC4 : Store := (repoCreate 100 emptyStore 0 sessC4).2

def sessC5 : Session :=
  ⟨"123", "12345678901234", "1234567890", 0, 0, "", "", "REGISTERED",
    [], secCtx0⟩

def sessC6a : Session :=
  ⟨"TMSIC601", "IMSIC60000000001", "0999000061", 0, 0, "", "", "REGISTERED",
    [], secCtx0⟩

def sessC6b : Session :=
  ⟨"TMSIC602", "IMSIC60000000001", "0999000062", 0, 0, "", "", "REGISTERED",
    [], secCtx0⟩

def sessC6c : Session :=
  ⟨"TMSIC601", "IMSIC60000000002", "0999000063", 0, 0, "", "", "REGISTERED",
    [], secCtx0⟩

def stC6a : Store := (repoCreate 100 emptyStore 0 sessC6a).2

def stC6b : Store := (repoCreate 100 stC6a 50 sessC6b).2

def stC6 : Store := (repoCreate 100 stC6b 120 sessC6c).2

def sessC7 : Session :=
  ⟨"TMSIC700", "IMSIC70000000001", "0999000007", 0, 0, "", "", "REGISTERED",
    [], secCtx0⟩

def stC7 : Store := (repoCreate 100 emptyStore 0 sessC7).2

def sessC8 : Session :=
  ⟨"TMSIC800", "IMSIC80000000001", "0999000008", 0, 0, "", "", "REGISTERED",
    [], secCtx0⟩

def sessC8x : Session := { sessC8 with imsi := "IMSIC80000000002" }

def stC8 : Store := (repoCreate 100 emptyStore 0 sessC8).2

def sessC9 : Session :=
  ⟨"TMSIC900", "IMSIC90000000001", "0999000009", 0, 0, "gNB001", "", "REGISTERED",
    [], secCtx0⟩

def sessC9x : Session := { sessC9 with gnbid := "gNB002", attachTime := 77 }

def stC9 : Store := (repoCreate 100 emptyStore 0 sessC9).2

def sessC10 : Session :=
  ⟨"TMSIC1000", "IMSIC10000000001", "0999000010", 0, 0, "", "", "REGISTERED",
    [], secCtx0⟩

def stC10 : Store := (repoCreate 100 emptyStore 0 sessC10).2

/-! Association-list lemmas. -/

theorem alookup_aset_eq {α : Type} (l : List (String × α)) (k : String) (v : α) :
    alookup (aset l k v) k = some v := by
  induction l with
  | nil => simp [aset, alookup]
  | cons p rest ih =>
      obtain ⟨k', w⟩ := p
      by_cases h : k' = k
      · simp [aset, h, alookup]
      · simp [aset, h, alookup, ih]

theorem alookup_aset_ne {α : Type} (l : List (String × α)) (k : String) (v : α)
    (k' : String) (h : k' ≠ k) : alookup (aset l k v) k' = alookup l k' := by
  induction l with
  | nil => simp [aset, alookup, Ne.symm h]
  | cons p rest ih =>
      obtain ⟨k₀, w⟩ := p
      by_cases h0 : k₀ = k
      · subst h0
        simp [aset, alookup, Ne.symm h]
      · simp only [aset, if_neg h0]
        by_cases h1 : k₀ = k'
        · simp [alookup, h1]
        · simp [alookup, h1, ih]

theorem validateSession_ok {s : Session} :
    validateSession s = .ok () ↔ s.tmsi ≠ "" ∧ s.imsi ≠ "" ∧ s.msisdn ≠ "" := by
  unfold validateSession
  split_ifs <;> simp_all

/-! Non-termination of `Get`/`RenewTTL` on a live record: `Get` ends by
calling `RenewTTL`, whose first step re-reads the record through `Get`, so on
a record that reads successfully neither call completes at any fuel. -/

theorem get_renew_diverge (ttl : Nat) :
    ∀ fuel st now (t : String), t ≠ "" → (∃ s, getSess st now t = some s) →
      repoGet ttl fuel st now t = none ∧ repoRenewTTL ttl fuel st now t = none := by
  intro fuel
  induction fuel with
  | zero => intro st now t _ _; exact ⟨rfl, rfl⟩
  | succ n ih =>
      intro st now t ht hs
      obtain ⟨s, hs⟩ := hs
      refine ⟨?_, ?_⟩
      · simp [repoGet, ht, hs, (ih st now t ht ⟨s, hs⟩).2]
      · simp [repoRenewTTL, ht, (ih st now t ht ⟨s, hs⟩).1]

theorem repoGet_diverge {ttl fuel : Nat} {st : Store} {now : Nat} {t : String}
    {s : Session} (ht : t ≠ "") (hs : getSess st now t = some s) :
    repoGet ttl fuel st now t = none :=
  (get_renew_diverge ttl fuel st now t ht ⟨s, hs⟩).1

theorem repoRenewTTL_diverge {ttl fuel : Nat} {st : Store} {now : Nat}
    {t : String} {s : Session} (ht : t ≠ "") (hs : getSess st now t = some s) :
    repoRenewTTL ttl fuel st now t = none :=
  (get_renew_diverge ttl fuel st now t ht ⟨s, hs⟩).2

/-- A `Get` that completes returns an error and leaves the store unchanged
(the success path never completes). -/
theorem repoGet_complete {ttl fuel : Nat} {st : Store} {now : Nat} {t : String}
    {r : Except SErr Session} {st' : Store}
    (h : repoGet ttl fuel st now t = some (r, st')) :
    st' = st ∧ ∃ e, r = .error e := by
  cases fuel with
  | zero => simp [repoGet] at h
  | succ n =>
      by_cases ht : t = ""
      · simp [repoGet, ht] at h
        exact ⟨h.2.symm, .invalidTMSI, h.1.symm⟩
      · cases hg : getSess st now t with
        | none =>
            simp [repoGet, ht, hg] at h
            exact ⟨h.2.symm, .notFound, h.1.symm⟩
        | some s => simp [repoGet, ht, hg, repoRenewTTL_diverge ht hg] at h

/-- A `RenewTTL` that completes returns an error and leaves the store
unchanged. -/
theorem repoRenewTTL_complete {ttl fuel : Nat} {st : Store} {now : Nat}
    {t : String} {r : Except SErr Unit} {st' : Store}
    (h : repoRenewTTL ttl fuel st now t = some (r, st')) :
    st' = st ∧ ∃ e, r = .error e := by
  cases fuel with
  | zero => simp [repoRenewTTL] at h
  | succ n =>
      by_cases ht : t = ""
      · simp [repoRenewTTL, ht] at h
        exact ⟨h.2.symm, .invalidTMSI, h.1.symm⟩
      · cases hg : repoGet ttl n st now t with
        | none => simp [repoRenewTTL, ht, hg] at h
        | some p =>
            obtain ⟨st0, e, hee⟩ := repoGet_complete hg
            rw [show p = (p.1, p.2) from rfl, hee, st0] at hg
            simp [repoRenewTTL, ht, hg] at h
            exact ⟨h.2.symm, e, h.1.symm⟩

/-- An `Update` that completes returns an error and leaves the store
unchanged. -/
theorem repoUpdate_complete {ttl fuel : Nat} {st : Store} {now : Nat}
    {s : Session} {r : Except SErr Unit} {st' : Store}
    (h : repoUpdate ttl fuel st now s = some (r, st')) :
    st' = st ∧ ∃ e, r = .error e := by
  cases hv : validateSession s with
  | error e =>
      simp [repoUpdate, hv] at h
      exact ⟨h.2.symm, e, h.1.symm⟩
  | ok u =>
      cases u
      cases hg : repoGet ttl fuel st now s.tmsi with
      | none => simp [repoUpdate, hv, hg] at h
      | some p =>
          obtain ⟨st0, e, hee⟩ := repoGet_complete hg
          rw [show p = (p.1, p.2) from rfl, hee, st0] at hg
          simp [repoUpdate, hv, hg] at h
          exact ⟨h.2.symm, e, h.1.symm⟩

/-- A `Delete` that completes returns an error and leaves the store
unchanged. -/
theorem repoDelete_complete {ttl fuel : Nat} {st : Store} {now : Nat}
    {t : String} {r : Except SErr Unit} {st' : Store}
    (h : repoDelete ttl fuel st now t = some (r, st')) :
    st' = st ∧ ∃ e, r = .error e := by
  by_cases ht : t = ""
  · simp [repoDelete, ht] at h
    exact ⟨h.2.symm, .invalidTMSI, h.1.symm⟩
  · cases hg : repoGet ttl fuel st now t with
    | none => simp [repoDelete, ht, hg] at h
    | some p =>
        obtain ⟨st0, e, hee⟩ := repoGet_complete hg
        rw [show p = (p.1, p.2) from rfl, hee, st0] at hg
        simp [repoDelete, ht, hg] at h
        exact ⟨h.2.symm, e, h.1.symm⟩

/-! The inductive invariant behind claim C2. -/

theorem idxFind_some {idx : List (String × (List String × Option Nat))}
    {now : Nat} {k : String} {l : List String} {dl : Option Nat} :
    idxFind idx now k = some (l, dl) ↔ alookup idx k = some (l, dl) ∧ dlive now dl := by
  unfold idxFind
  cases h : alookup idx k with
  | none => simp
  | some p =>
      obtain ⟨l0, dl0⟩ := p
      by_cases hd : dlive now dl0
      · simp only [if_pos hd, Option.some.injEq, Prod.mk.injEq, true_and]
        constructor
        · rintro ⟨rfl, rfl⟩; exact ⟨⟨rfl, rfl⟩, hd⟩
        · rintro ⟨⟨rfl, rfl⟩, _⟩; exact ⟨rfl, rfl⟩
      · simp only [if_neg hd]
        constructor
        · intro hh; exact Option.noConfusion hh
        · rintro ⟨heq, hdl⟩
          simp only [Option.some.injEq, Prod.mk.injEq] at heq
          obtain ⟨rfl, rfl⟩ := heq
          exact absurd hdl hd

theorem alookup_sadd_ne {idx : List (String × (List String × Option Nat))}
    {now : Nat} {k t key : String} (h : key ≠ k) :
    alookup (sadd idx now k t) key = alookup idx key := by
  unfold sadd
  cases hf : idxFind idx now k with
  | none => exact alookup_aset_ne _ _ _ _ h
  | some p =>
      obtain ⟨l0, dl0⟩ := p
      exact alookup_aset_ne _ _ _ _ h

theorem alookup_expireIdx_ne {ttl : Nat} {idx : List (String × (List String × Option Nat))}
    {now : Nat} {k key : String} (h : key ≠ k) :
    alookup (expireIdx ttl idx now k) key = alookup idx key := by
  unfold expireIdx
  cases hf : idxFind idx now k with
  | none => rfl
  | some p =>
      obtain ⟨l0, dl0⟩ := p
      exact alookup_aset_ne _ _ _ _ h

/-- After `SADD key t` followed by `EXPIRE key ttl`, `t` is a member of the
live set at `key` with deadline `now + ttl`. -/
theorem memIdx_saddExpire_self {ttl : Nat}
    {idx : List (String × (List String × Option Nat))} {now : Nat} {k t : String} :
    MemIdx (expireIdx ttl (sadd idx now k t) now k) k t (now + ttl) := by
  cases hf : idxFind idx now k with
  | none =>
      have hsadd : sadd idx now k t = aset idx k ([t], none) := by
        simp [sadd, hf]
      have hfind2 : idxFind (aset idx k ([t], none)) now k = some ([t], none) :=
        idxFind_some.mpr ⟨alookup_aset_eq _ _ _, trivial⟩
      refine ⟨[t], some (now + ttl), ?_, by simp, Nat.le_refl _⟩
      rw [hsadd]
      simp only [expireIdx, hfind2]
      exact alookup_aset_eq _ _ _
  | some p =>
      obtain ⟨l0, dl0⟩ := p
      have hlive : dlive now dl0 := (idxFind_some.mp hf).2
      have hsadd : sadd idx now k t
          = aset idx k ((if t ∈ l0 then l0 else l0 ++ [t]), dl0) := by
        simp [sadd, hf]
      have hfind2 : idxFind (aset idx k ((if t ∈ l0 then l0 else l0 ++ [t]), dl0)) now k
          = some ((if t ∈ l0 then l0 else l0 ++ [t]), dl0) :=
        idxFind_some.mpr ⟨alookup_aset_eq _ _ _, hlive⟩
      refine ⟨(if t ∈ l0 then l0 else l0 ++ [t]), some (now + ttl), ?_, ?_, Nat.le_refl _⟩
      · rw [hsadd]
        simp only [expireIdx, hfind2]
        exact alookup_aset_eq _ _ _
      · by_cases htl : t ∈ l0 <;> simp [htl]

/-- `SADD`+`EXPIRE` at a live key preserves membership of every entry whose
deadline has not yet passed. -/
theorem memIdx_saddExpire {ttl : Nat}
    {idx : List (String × (List String × Option Nat))} {now : Nat}
    {key u : String} {d : Nat} (k t : String)
    (hmem : MemIdx idx key u d) (hd : now < d) (hbound : d ≤ now + ttl) :
    MemIdx (expireIdx ttl (sadd idx now k t) now k) key u d := by
  obtain ⟨l0, dl0, hl, hu, hle⟩ := hmem
  by_cases hk : key = k
  · subst hk
    have hlive : dlive now dl0 := by
      cases dl0 with
      | none => trivial
      | some x => exact Nat.lt_of_lt_of_le hd hle
    have hf : idxFind idx now key = some (l0, dl0) := idxFind_some.mpr ⟨hl, hlive⟩
    have hsadd : sadd idx now key t
        = aset idx key ((if t ∈ l0 then l0 else l0 ++ [t]), dl0) := by
      simp [sadd, hf]
    have hfind2 : idxFind (aset idx key ((if t ∈ l0 then l0 else l0 ++ [t]), dl0)) now key
        = some ((if t ∈ l0 then l0 else l0 ++ [t]), dl0) :=
      idxFind_some.mpr ⟨alookup_aset_eq _ _ _, hlive⟩
    refine ⟨(if t ∈ l0 then l0 else l0 ++ [t]), some (now + ttl), ?_, ?_, hbound⟩
    · rw [hsadd]
      simp only [expireIdx, hfind2]
      exact alookup_aset_eq _ _ _
    · by_cases htl : t ∈ l0 <;> simp [htl, hu]
  · refine ⟨l0, dl0, ?_, hu, hle⟩
    rw [alookup_expireIdx_ne hk, alookup_sadd_ne hk]
    exact hl

theorem good_mono {ttl : Nat} {st : Store} {t0 t1 : Nat} (h01 : t0 ≤ t1)
    (hg : Good ttl st t0) : Good ttl st t1 := by
  intro t s d hl
  obtain ⟨hb, hd⟩ := hg t s d hl
  refine ⟨hb.trans (Nat.add_le_add_right h01 ttl), ?_⟩
  cases hd with
  | inl h => exact Or.inl (h.trans h01)
  | inr h => exact Or.inr h

/-- `Create` establishes the inductive invariant at the instant it runs. -/
theorem good_create {ttl : Nat} {st : Store} {t0 now : Nat} (s : Session)
    (hg : Good ttl st t0) (hle : t0 ≤ now) :
    Good ttl (repoCreate ttl st now s).2 now := by
  cases hv : validateSession s with
  | error e =>
      simpa [repoCreate, hv] using good_mono hle hg
  | ok u =>
      cases u
      have hst : (repoCreate ttl st now s).2 =
          { sessions := aset st.sessions s.tmsi
              ({ s with attachTime := if s.attachTime = 0 then now else s.attachTime,
                        lastUpdate := now }, now + ttl),
            imsiIdx := expireIdx ttl (sadd st.imsiIdx now s.imsi s.tmsi) now s.imsi,
            msisdnIdx := expireIdx ttl (sadd st.msisdnIdx now s.msisdn s.tmsi) now s.msisdn } := by
        simp [repoCreate, hv, setSess]
      rw [hst]
      intro t u d hl
      by_cases ht : t = s.tmsi
      · subst ht
        rw [alookup_aset_eq] at hl
        simp only [Option.some.injEq, Prod.mk.injEq] at hl
        obtain ⟨rfl, rfl⟩ := hl
        exact ⟨Nat.le_refl _, Or.inr ⟨memIdx_saddExpire_self, memIdx_saddExpire_self⟩⟩
      · rw [alookup_aset_ne _ _ _ _ ht] at hl
        obtain ⟨hb, hdisj⟩ := hg t u d hl
        refine ⟨hb.trans (Nat.add_le_add_right hle ttl), ?_⟩
        by_cases hdn : d ≤ now
        · exact Or.inl hdn
        · have hnow : now < d := Nat.lt_of_not_le hdn
          cases hdisj with
          | inl h => exact absurd (h.trans hle) hdn
          | inr h =>
              have hbound : d ≤ now + ttl := hb.trans (Nat.add_le_add_right hle ttl)
              exact Or.inr ⟨memIdx_saddExpire _ _ h.1 hnow hbound,
                memIdx_saddExpire _ _ h.2 hnow hbound⟩

theorem good_emptyStore (ttl : Nat) : Good ttl emptyStore 0 := by
  intro t s d hl
  simp [emptyStore, alookup] at hl

/-- Every reachable store satisfies the inductive invariant. -/
theorem reachable_good {ttl : Nat} {st : Store} {t0 : Nat}
    (h : Reachable ttl st t0) : Good ttl st t0 := by
  induction h with
  | init => exact good_emptyStore ttl
  | @step st1 t1 now fuel op st' hr hle happ ih =>
      cases op with
      | create s =>
          simp only [applyOp, Option.some.injEq] at happ
          rw [← happ]
          exact good_create s ih hle
      | get t =>
          cases hg : repoGet ttl fuel st1 now t with
          | none => rw [applyOp, hg] at happ; exact Option.noConfusion happ
          | some p =>
              rw [applyOp, hg] at happ
              simp at happ
              have hg' : repoGet ttl fuel st1 now t = some (p.1, p.2) := by rw [hg]
              obtain ⟨hfr, _⟩ := repoGet_complete hg'
              rw [← happ, hfr]
              exact good_mono hle ih
      | update s =>
          cases hg : repoUpdate ttl fuel st1 now s with
          | none => rw [applyOp, hg] at happ; exact Option.noConfusion happ
          | some p =>
              rw [applyOp, hg] at happ
              simp at happ
              have hg' : repoUpdate ttl fuel st1 now s = some (p.1, p.2) := by rw [hg]
              obtain ⟨hfr, _⟩ := repoUpdate_complete hg'
              rw [← happ, hfr]
              exact good_mono hle ih
      | del t =>
          cases hg : repoDelete ttl fuel st1 now t with
          | none => rw [applyOp, hg] at happ; exact Option.noConfusion happ
          | some p =>
              rw [applyOp, hg] at happ
              simp at happ
              have hg' : repoDelete ttl fuel st1 now t = some (p.1, p.2) := by rw [hg]
              obtain ⟨hfr, _⟩ := repoDelete_complete hg'
              rw [← happ, hfr]
              exact good_mono hle ih
      | renew t =>
          cases hg : repoRenewTTL ttl fuel st1 now t with
          | none => rw [applyOp, hg] at happ; exact Option.noConfusion happ
          | some p =>
              rw [applyOp, hg] at happ
              simp at happ
              have hg' : repoRenewTTL ttl fuel st1 now t = some (p.1, p.2) := by rw [hg]
              obtain ⟨hfr, _⟩ := repoRenewTTL_complete hg'
              rw [← happ, hfr]
              exact good_mono hle ih

/-- A successful record read is exactly a stored entry whose deadline has not
passed. -/
theorem getSess_eq_some {st : Store} {now : Nat} {t : String} {s : Session} :
    getSess st now t = some s ↔
      ∃ d, alookup st.sessions t = some (s, d) ∧ now < d := by
  unfold getSess
  cases h : alookup st.sessions t with
  | none => simp
  | some p =>
      obtain ⟨s0, d⟩ := p
      by_cases hd : now < d
      · simp only [if_pos hd, Option.some.injEq, Prod.mk.injEq]
        constructor
        · rintro rfl; exact ⟨d, ⟨rfl, rfl⟩, hd⟩
        · rintro ⟨d', ⟨rfl, rfl⟩, _⟩; rfl
      · simp only [if_neg hd]
        constructor
        · intro hh; exact Option.noConfusion hh
        · rintro ⟨d', ⟨rfl, rfl⟩, hd'⟩; exact absurd hd' hd

/-- The inductive invariant implies the claimed live-record index-membership
property at every instant from the last operation on. -/
theorem good_liveInv {ttl : Nat} {st : Store} {t0 : Nat} (hg : Good ttl st t0) :
    SessionLiveInv st t0 := by
  intro now t s hle hget
  obtain ⟨d, hl, hd⟩ := getSess_eq_some.mp hget
  obtain ⟨hb, hdisj⟩ := hg t s d hl
  cases hdisj with
  | inl h => exact absurd (Nat.lt_of_lt_of_le hd (h.trans hle)) (Nat.lt_irrefl now)
  | inr h =>
      obtain ⟨⟨l1, dl1, hl1, hm1, hle1⟩, l2, dl2, hl2, hm2, hle2⟩ := h
      constructor
      · have hlive : dlive now dl1 := by
          cases dl1 with
          | none => trivial
          | some x => exact Nat.lt_of_lt_of_le hd hle1
        have hf : idxFind st.imsiIdx now s.imsi = some (l1, dl1) :=
          idxFind_some.mpr ⟨hl1, hlive⟩
        simpa [smembers, hf] using hm1
      · have hlive : dlive now dl2 := by
          cases dl2 with
          | none => trivial
          | some x => exact Nat.lt_of_lt_of_le hd hle2
        have hf : idxFind st.msisdnIdx now s.msisdn = some (l2, dl2) :=
          idxFind_some.mpr ⟨hl2, hlive⟩
        simpa [smembers, hf] using hm2

/-! Further helper lemmas. -/

theorem validateSessionForCreation_ok {s : Session} :
    validateSessionForCreation s = .ok () ↔
      s.tmsi ≠ "" ∧ s.imsi ≠ "" ∧ s.msisdn ≠ "" ∧
        4 ≤ s.tmsi.length ∧ 14 ≤ s.imsi.length ∧ 10 ≤ s.msisdn.length := by
  unfold validateSessionForCreation
  split_ifs <;> simp_all

theorem validateSessionForUpdate_ok {s : Session} :
    validateSessionForUpdate s = .ok () ↔
      s.tmsi ≠ "" ∧ s.imsi ≠ "" ∧ s.msisdn ≠ "" := by
  unfold validateSessionForUpdate
  split_ifs <;> simp_all

/-- `Update` never completes on a live record: its existence check re-reads
the record through the diverging `Get`. -/
theorem repoUpdate_diverge {ttl fuel : Nat} {st : Store} {now : Nat}
    {s ex : Session} (hv : validateSession s = .ok ())
    (hs : getSess st now s.tmsi = some ex) :
    repoUpdate ttl fuel st now s = none := by
  have ht : s.tmsi ≠ "" := (validateSession_ok.mp hv).1
  simp [repoUpdate, hv, repoGet_diverge ht hs]

/-- `Delete` never completes on a live record, for the same reason. -/
theorem repoDelete_diverge {ttl fuel : Nat} {st : Store} {now : Nat}
    {t : String} {ex : Session} (ht : t ≠ "")
    (hs : getSess st now t = some ex) :
    repoDelete ttl fuel st now t = none := by
  simp [repoDelete, ht, repoGet_diverge ht hs]

/-- The service-layer duplicate check of `CreateSession` re-reads the record
through the diverging `Get`, so creation over a live TMSI never completes. -/
theorem serviceCreateSession_diverge {ttl fuel : Nat} {st : Store} {now : Nat}
    {s ex : Session} (hv : validateSessionForCreation s = .ok ())
    (hs : getSess st now s.tmsi = some ex) :
    serviceCreateSession ttl fuel st now s = none := by
  have ht : s.tmsi ≠ "" := (validateSessionForCreation_ok.mp hv).1
  simp [serviceCreateSession, hv, repoGet_diverge ht hs]

/-- `SessionService.UpdateSession` never completes on a live record. -/
theorem serviceUpdateSession_diverge {ttl fuel : Nat} {st : Store} {now : Nat}
    {s ex : Session} (hv : validateSessionForUpdate s = .ok ())
    (hs : getSess st now s.tmsi = some ex) :
    serviceUpdateSession ttl fuel st now s = none := by
  have ht : s.tmsi ≠ "" := (validateSessionForUpdate_ok.mp hv).1
  simp [serviceUpdateSession, hv, repoGet_diverge ht hs]

/-- A resolved session is exactly a live record of one of the listed TMSIs. -/
theorem mem_collectSessions {st : Store} {now : Nat} (ts : List String)
    (s : Session) :
    s ∈ collectSessions st now ts ↔
      ∃ t, t ∈ ts ∧ getSess st now t = some s := by
  induction ts with
  | nil => simp [collectSessions]
  | cons t rest ih =>
      cases hg : getSess st now t with
      | none =>
          simp only [collectSessions, hg, ih, List.mem_cons]
          constructor
          · rintro ⟨u, hu, hgu⟩; exact ⟨u, Or.inr hu, hgu⟩
          · rintro ⟨u, hu, hgu⟩
            cases hu with
            | inl h => rw [h] at hgu; rw [hg] at hgu; exact Option.noConfusion hgu
            | inr h => exact ⟨u, h, hgu⟩
      | some s0 =>
          simp only [collectSessions, hg, List.mem_cons, ih]
          constructor
          · rintro (rfl | ⟨u, hu, hgu⟩)
            · exact ⟨t, Or.inl rfl, hg⟩
            · exact ⟨u, Or.inr hu, hgu⟩
          · rintro ⟨u, hu, hgu⟩
            cases hu with
            | inl h =>
                rw [h] at hgu
                rw [hg] at hgu
                exact Or.inl (Option.some.inj hgu).symm
            | inr h => exact Or.inr ⟨u, h, hgu⟩

/-- The detached cleanup goroutine can never change the store when it
completes: its `Get` either diverges (record live) or errors out (record
gone), in which case the cleanup gives up before the `SREM`s. -/
theorem cleanupExpiredIndex_frame {ttl fuel : Nat} {st : Store} {now : Nat}
    {t : String} {st' : Store}
    (h : cleanupExpiredIndex ttl fuel st now t = some st') : st' = st := by
  cases hg : repoGet ttl fuel st now t with
  | none => simp [cleanupExpiredIndex, hg] at h
  | some p =>
      have hg' : repoGet ttl fuel st now t = some (p.1, p.2) := by rw [hg]
      obtain ⟨hfr, e, hee⟩ := repoGet_complete hg'
      rw [show p = (p.1, p.2) from rfl, hee, hfr] at hg
      simp [cleanupExpiredIndex, hg] at h
      exact h.symm

/-! The claim theorems. -/

/-- Claim C1 (code bug): for the valid record `sessC1`, `Create` stores a
record agreeing with the input on every field except the server-assigned
`AttachTime`/`LastUpdate`; but `Get` on that TMSI never returns at any
recursion budget, because `Get` invokes `RenewTTL` and `RenewTTL` re-enters
`Get` on the still-live record. -/
theorem c1_create_then_get :
    getSess stC1 10 "12345678"
      = some { sessC1 with attachTime := 10, lastUpdate := 10 } ∧
    ∀ fuel, repoGet 100 fuel stC1 10 "12345678" = none :=
  ⟨by decide, fun fuel =>
    @repoGet_diverge 100 fuel stC1 10 "12345678"
      { sessC1 with attachTime := 10, lastUpdate := 10 } (by decide) (by decide)⟩

/-- Claim C2 (confirmed): in every store reachable from the empty store by
completed Create/Get/Update/Delete/RenewTTL operations, a live record's TMSI
is a member of the live IMSI-index set of its IMSI and of the live
MSISDN-index set of its MSISDN, at every instant from the last operation on. -/
theorem c2_live_record_indexed {ttl : Nat} {st : Store} {t0 : Nat}
    (h : Reachable ttl st t0) : SessionLiveInv st t0 :=
  good_liveInv (reachable_good h)

/-- Witness for C2 at a concrete reachable store (one `Create`). -/
theorem c2_live_record_indexed_witness :
    SessionLiveInv (repoCreate 100 emptyStore 0 sessC2).2 0 :=
  c2_live_record_indexed
    (@Reachable.step 100 emptyStore 0 0 1 (Op.create sessC2)
      (repoCreate 100 emptyStore 0 sessC2).2 Reachable.init (Nat.le_refl 0) rfl)

/-- Claim C3 (code bug): `Get` on the live record `sessC3` does not
terminate: for every recursion budget the `Get`/`RenewTTL` mutual recursion
runs out of fuel instead of returning the deserialized record. -/
theorem c3_get_never_terminates :
    ∀ fuel, repoGet 100 fuel stC3 4 "TMSIC300" = none :=
  fun fuel =>
    @repoGet_diverge 100 fuel stC3 4 "TMSIC300" sessC3 (by decide) (by decide)

/-- Claim C4 (code bug): the repository-level `Create` performs no existence
check, so a second `Create` for a TMSI with a live record succeeds again
(overwriting) instead of failing with `AlreadyExists`; and the service-level
duplicate check never completes on a live record, because it re-reads it
through the diverging `Get`. -/
theorem c4_duplicate_create_accepted :
    (repoCreate 100 emptyStore 0 sessC4).1 = .ok () ∧
    (repoCreate 100 stC4 5 sessC4).1 = .ok () ∧
    ∀ fuel, serviceCreateSession 100 fuel stC4 5 sessC4 = none :=
  ⟨by decide, by decide, fun fuel =>
    @serviceCreateSession_diverge 100 fuel stC4 5 sessC4 sessC4
      (by decide) (by decide)⟩

/-- Claim C5 counterexample: `sessC5` has a 3-character TMSI (and valid IMSI
and MSISDN).  Update-validation accepts it — so Update does not apply the
same rules as Create; `UpdateSession` instead fails with `NotFound` on an
empty store.  Creation-validation rejects it, but with a plain message-only
error, not a `ValidationError` naming the field. -/
theorem c5_counterexample :
    validateSessionForUpdate sessC5 = .ok () ∧
    validateSessionForCreation sessC5
      = .error (.plain "TMSI must be at least 4 characters long") ∧
    serviceUpdateSession 100 5 emptyStore 0 sessC5
      = some (.error .notFound, emptyStore) := by
  decide

/-- Claim C5 as amended: creation-validation requires non-empty TMSI, IMSI
and MSISDN and the minimum lengths 4/14/10; update-validation requires only
non-emptiness (no length rules). -/
theorem c5_validation_rules (s : Session) :
    (validateSessionForCreation s = .ok () ↔
      s.tmsi ≠ "" ∧ s.imsi ≠ "" ∧ s.msisdn ≠ "" ∧
        4 ≤ s.tmsi.length ∧ 14 ≤ s.imsi.length ∧ 10 ≤ s.msisdn.length) ∧
    (validateSessionForUpdate s = .ok () ↔
      s.tmsi ≠ "" ∧ s.imsi ≠ "" ∧ s.msisdn ≠ "") :=
  ⟨validateSessionForCreation_ok, validateSessionForUpdate_ok⟩

/-- Witness for C5 at the concrete record `sessC5`. -/
theorem c5_validation_rules_witness :
    (validateSessionForCreation sessC5 = .ok () ↔
      sessC5.tmsi ≠ "" ∧ sessC5.imsi ≠ "" ∧ sessC5.msisdn ≠ "" ∧
        4 ≤ sessC5.tmsi.length ∧ 14 ≤ sessC5.imsi.length ∧
          10 ≤ sessC5.msisdn.length) ∧
    (validateSessionForUpdate sessC5 = .ok () ↔
      sessC5.tmsi ≠ "" ∧ sessC5.imsi ≠ "" ∧ sessC5.msisdn ≠ "") :=
  c5_validation_rules sessC5

/-- Claim C6 counterexample: records `TMSIC601`/`TMSIC602` share an IMSI;
after `TMSIC601`'s record expires it is re-created (through the full service
path, whose duplicate check passes) with a different IMSI, while the old IMSI
index entry is still live.  `QueryByIMSI` on the old IMSI then returns the
re-created record, whose IMSI is not the queried one: the result is not the
set of live records whose IMSI equals the query. -/
theorem c6_counterexample :
    serviceCreateSession 100 5 stC6b 120 sessC6c = some (.ok (), stC6) ∧
    (repoQueryByIMSI stC6 130 "IMSIC60000000001").1
      = .ok [{ sessC6c with attachTime := 120, lastUpdate := 120 },
             { sessC6b with attachTime := 50, lastUpdate := 50 }] ∧
    ({ sessC6c with attachTime := 120, lastUpdate := 120 } : Session).imsi
      ≠ "IMSIC60000000001" := by
  decide

/-- Claim C6 as amended: for a non-empty IMSI, `QueryByIMSI` returns without
error exactly the live records of the TMSIs in the index set (members whose
record is missing are skipped; an empty or absent index yields `[]`); the
returned records' IMSI need not equal the queried one when an index entry is
stale. -/
theorem c6_query_by_imsi_spec (st : Store) (now : Nat) (imsi : String)
    (h : imsi ≠ "") :
    ∃ l, repoQueryByIMSI st now imsi = (.ok l, st) ∧
      ∀ s, s ∈ l ↔
        ∃ t, t ∈ smembers st.imsiIdx now imsi ∧ getSess st now t = some s := by
  unfold repoQueryByIMSI repoQueryByMultiple
  rw [if_neg h]
  by_cases hm : smembers st.imsiIdx now imsi = []
  · refine ⟨[], by simp [hm], ?_⟩
    intro s
    simp [hm]
  · refine ⟨collectSessions st now (smembers st.imsiIdx now imsi), by simp [hm], ?_⟩
    intro s
    exact mem_collectSessions _ _

/-- Witness for C6 at the concrete stale-index store. -/
theorem c6_query_by_imsi_spec_witness :
    ∃ l, repoQueryByIMSI stC6 130 "IMSIC60000000001" = (.ok l, stC6) ∧
      ∀ s, s ∈ l ↔
        ∃ t, t ∈ smembers stC6.imsiIdx 130 "IMSIC60000000001" ∧
          getSess stC6 130 t = some s :=
  c6_query_by_imsi_spec stC6 130 "IMSIC60000000001" (by decide)

/-- Claim C7 (code bug): `Delete` of an absent TMSI does fail with
`NotFound`, but `Delete` of a live record never completes at any recursion
budget — its pre-read through `Get` diverges — so the claimed post-state of a
successful `Delete` is never produced. -/
theorem c7_delete_notfound_and_never_completes :
    repoDelete 100 5 emptyStore 0 "TMSIC7NO"
      = some (.error .notFound, emptyStore) ∧
    ∀ fuel, repoDelete 100 fuel stC7 5 "TMSIC700" = none :=
  ⟨by decide, fun fuel =>
    @repoDelete_diverge 100 fuel stC7 5 "TMSIC700" sessC7 (by decide) (by decide)⟩

/-- Claim C8 (code bug): an `Update` changing the IMSI of the live record
`sessC8` never completes, at either the repository or service layer: the
existence check re-enters the diverging `Get`, so the claimed index move and
the new query behaviour never happen. -/
theorem c8_update_imsi_change_never_completes :
    ∀ fuel, repoUpdate 100 fuel stC8 5 sessC8x = none ∧
      serviceUpdateSession 100 fuel stC8 5 sessC8x = none :=
  fun fuel =>
    ⟨@repoUpdate_diverge 100 fuel stC8 5 sessC8x sessC8 (by decide) (by decide),
     @serviceUpdateSession_diverge 100 fuel stC8 5 sessC8x sessC8
       (by decide) (by decide)⟩

/-- Claim C9 (code bug): `Update` of an absent TMSI does fail with
`NotFound`, but a successful `Update` of a live record never happens — the
call diverges — so the claimed timestamp handling of successful updates is
unreachable. -/
theorem c9_update_notfound_and_never_completes :
    repoUpdate 100 5 emptyStore 0 sessC9 = some (.error .notFound, emptyStore) ∧
    ∀ fuel, repoUpdate 100 fuel stC9 7 sessC9x = none :=
  ⟨by decide, fun fuel =>
    @repoUpdate_diverge 100 fuel stC9 7 sessC9x sessC9 (by decide) (by decide)⟩

/-- Claim C10 (code bug): `RenewTTL` of an absent TMSI does fail with
`NotFound`, but `RenewTTL` on a live record never completes at any recursion
budget — it re-reads the record through `Get`, which calls `RenewTTL` again —
so no renewal (let alone an idempotent one) is ever performed. -/
theorem c10_renew_notfound_and_never_completes :
    repoRenewTTL 100 5 emptyStore 0 "TMSIC10NO"
      = some (.error .notFound, emptyStore) ∧
    ∀ fuel, repoRenewTTL 100 fuel stC10 3 "TMSIC1000" = none :=
  ⟨by decide, fun fuel =>
    @repoRenewTTL_diverge 100 fuel stC10 3 "TMSIC1000" sessC10
      (by decide) (by decide)⟩
